import Mathlib

/-!
Verification of the Trajectory Distillation and Few-Shot Retrieval Engine.

This file gives a shallow embedding, over exact rationals, of the trajectory
recorder, the similarity search service, and the exporter of the repository,
and proves or refutes the specified properties about them.

External effects (the embedding provider call, database failures, the current
clock) are passed in as explicit parameters; machine floating point is
modelled by the rationals, and JS `Map` objects by insertion-ordered
association lists.
-/

/-! ## Data model (trajectory.types.ts) -/

/-- Token usage rollup carried in the trajectory metrics. -/
structure TokenUsage where
  input : Nat
  output : Nat
  total : Nat
deriving Repr, DecidableEq

/-- Metrics calculated from trajectory execution.  Nullable fields of the
source (`clickAccuracy`) are `Option`; rates are exact rationals. -/
structure TrajectoryMetrics where
  iterationCount : Nat
  toolCallsCount : Nat
  tokenUsage : TokenUsage
  errorRate : ℚ
  clickAccuracy : Option ℚ
  userInterventions : Nat
deriving Repr, DecidableEq

/-- A content block of a message snapshot.  A JS object with a `type` tag and
a possibly absent `text`; an absent text is modelled by the empty string,
which the source treats identically (both are falsy). -/
structure Block where
  type : String
  text : String
deriving Repr, DecidableEq

/-- The `content` property of a snapshot message: a plain string, an array of
blocks, or some other JSON value (kept abstract as its serialization). -/
inductive MsgContent where
  | str (s : String)
  | blocks (bs : List Block)
  | other (serialized : String)
deriving Repr, DecidableEq

/-- One message of an iteration snapshot. -/
structure Msg where
  role : String
  content : MsgContent
deriving Repr, DecidableEq

/-- A tool call block; only the `name` property is consulted by the code
under verification.  An absent name is the empty string (falsy). -/
structure ToolCall where
  name : String
deriving Repr, DecidableEq

/-- Snapshot of a single iteration, as accumulated by the recorder. -/
structure IterationSnapshot where
  iterationNumber : Nat
  systemPrompt : String
  messages : List Msg
  toolCalls : Option (List ToolCall)
  reasoning : String
  tokenUsageInput : Nat
  tokenUsageOutput : Nat
deriving Repr, DecidableEq

/-- Complete in-memory trajectory data for a task execution.  Timestamps are
integer milliseconds since the epoch. -/
structure TrajectoryData where
  taskId : String
  modelProvider : String
  modelName : String
  success : Bool
  startedAt : ℤ
  completedAt : Option ℤ
  iterations : List IterationSnapshot
  metrics : TrajectoryMetrics
deriving Repr, DecidableEq

/-- Configuration for trajectory recording. -/
structure TrajectoryRecordingConfig where
  enabled : Bool
  modelProviders : List String
  minDuration : ℚ
  recordFailures : Bool
deriving Repr, DecidableEq

/-- The optional per-field override object passed to `completeTrajectory`
(`Partial<TrajectoryMetrics>` in the source): present fields replace the
accumulated ones by object spread. -/
structure PartialMetrics where
  iterationCount : Option Nat
  toolCallsCount : Option Nat
  tokenUsage : Option TokenUsage
  errorRate : Option ℚ
  clickAccuracy : Option (Option ℚ)
  userInterventions : Option Nat
deriving Repr, DecidableEq

/-- Object-spread merge `{ ...metrics, ...additionalMetrics }`. -/
def mergeMetrics (m : TrajectoryMetrics) (e : PartialMetrics) : TrajectoryMetrics :=
  { iterationCount := e.iterationCount.getD m.iterationCount
    toolCallsCount := e.toolCallsCount.getD m.toolCallsCount
    tokenUsage := e.tokenUsage.getD m.tokenUsage
    errorRate := e.errorRate.getD m.errorRate
    clickAccuracy := e.clickAccuracy.getD m.clickAccuracy
    userInterventions := e.userInterventions.getD m.userInterventions }

/-! ## Insertion-ordered association lists (JS `Map`) -/

/-- `Map.get` / `Map.has`: the value at the first matching key. -/
def mapLookup {α : Type} (m : List (String × α)) (k : String) : Option α :=
  (m.find? (fun p => p.1 = k)).map (fun p => p.2)

/-- `Map.set`: replace in place when the key exists, append otherwise
(JS maps keep the original insertion position on overwrite). -/
def mapSet {α : Type} (m : List (String × α)) (k : String) (v : α) :
    List (String × α) :=
  if m.any (fun p => p.1 = k) then
    m.map (fun p => if p.1 = k then (k, v) else p)
  else
    m ++ [(k, v)]

/-- `Map.delete`. -/
def mapDelete {α : Type} (m : List (String × α)) (k : String) :
    List (String × α) :=
  m.filter (fun p => p.1 ≠ k)

/-! ## Quality scorer (trajectory-recorder.service.ts, calculateQualityScore) -/

/-- `calculateQualityScore` of the recorder: `null` for failed runs, else 1.0
minus the four penalties of the source, clamped to [0, 1]. -/
def calculateQualityScore (trajectory : TrajectoryData) : Option ℚ :=
  if !trajectory.success then
    none
  else
    let metrics := trajectory.metrics
    let score : ℚ := 1
    let score :=
      if metrics.userInterventions > 0 then
        score - 0.3 * min (metrics.userInterventions : ℚ) 3
      else score
    let score :=
      if metrics.errorRate > 0.1 then
        score - 0.2 * (metrics.errorRate - 0.1)
      else score
    let score :=
      match metrics.clickAccuracy with
      | some ca => if ca < 0.8 then score - 0.2 * (0.8 - ca) else score
      | none => score
    let iterationPenalty := max 0 (((metrics.iterationCount : ℚ) - 10) * 0.02)
    let score := score - iterationPenalty
    some (max 0 (min 1 score))

/-- The scoring formula exactly as the specification words it:
`clamp(1.0 - 0.3*min(ui,3) - 0.2*max(0,er-0.1)
       - [if provided] 0.2*max(0,0.8-ca) - 0.02*max(0,ic-10), 0, 1)`,
and `None` when success is false. -/
def specQualityScore (success : Bool) (m : TrajectoryMetrics) : Option ℚ :=
  if success then
    some (max 0 (min 1
      (1 - 0.3 * min (m.userInterventions : ℚ) 3
         - 0.2 * max 0 (m.errorRate - 0.1)
         - (match m.clickAccuracy with
            | some ca => 0.2 * max 0 (0.8 - ca)
            | none => 0)
         - 0.02 * max 0 ((m.iterationCount : ℚ) - 10))))
  else
    none

/-- The worked example of the specification: a successful run with
2 interventions, error rate 0.3, click accuracy 0.5, 20 iterations. -/
def exampleTrajectory : TrajectoryData :=
  { taskId := "task-1"
    modelProvider := "anthropic"
    modelName := "m"
    success := true
    startedAt := 0
    completedAt := some 60000
    iterations := []
    metrics :=
      { iterationCount := 20
        toolCallsCount := 0
        tokenUsage := ⟨0, 0, 0⟩
        errorRate := 0.3
        clickAccuracy := some 0.5
        userInterventions := 2 } }

theorem quality_scorer_agrees (t : TrajectoryData) :
    calculateQualityScore t = specQualityScore t.success t.metrics := by
  obtain ⟨tid, mp, mn, succ, st, ct, its, ic, tc, tu, er, ca, ui⟩ := t
  cases succ with
  | false => rfl
  | true =>
    simp only [calculateQualityScore, specQualityScore, Bool.not_true,
      Bool.false_eq_true, if_false, if_true, reduceIte]
    have hiter : (0 : ℚ) ⊔ (((ic : ℚ) - 10) * 0.02)
        = 0.02 * ((0 : ℚ) ⊔ ((ic : ℚ) - 10)) := by
      rcases le_total ((ic : ℚ) - 10) 0 with h | h
      · rw [max_eq_left (by nlinarith), max_eq_left h]
        ring
      · rw [max_eq_right (by nlinarith), max_eq_right h]
        ring
    have her : (0 : ℚ) ⊔ (er - 0.1) = if er > 0.1 then er - 0.1 else 0 := by
      split_ifs with h
      · exact max_eq_right (by linarith)
      · exact max_eq_left (by linarith)
    have hui : (0.3 : ℚ) * ((ui : ℚ) ⊓ 3)
        = if ui > 0 then (0.3 : ℚ) * ((ui : ℚ) ⊓ 3) else 0 := by
      split_ifs with h
      · rfl
      · have hz : ui = 0 := by omega
        subst hz
        norm_num
    cases ca with
    | none =>
      dsimp only
      refine congrArg some (congrArg (fun x => (0 : ℚ) ⊔ (1 ⊓ x)) ?_)
      rw [hiter, her, hui]
      split_ifs <;> ring
    | some a =>
      have hca : (0 : ℚ) ⊔ (0.8 - a) = if a < 0.8 then 0.8 - a else 0 := by
        split_ifs with h
        · exact max_eq_right (by linarith)
        · exact max_eq_left (by linarith)
      dsimp only
      refine congrArg some (congrArg (fun x => (0 : ℚ) ⊔ (1 ⊓ x)) ?_)
      rw [hiter, her, hca, hui]
      split_ifs <;> ring

/-- C1: the quality scorer returns `None` exactly when success is false, for
every metric combination agrees with the clamp formula of the specification,
and on the worked example (success, 2 interventions, error rate 0.3, click
accuracy 0.5, 20 iterations) yields exactly 0.1. -/
theorem quality_score_matches_spec :
    (∀ t : TrajectoryData, t.success = false → calculateQualityScore t = none)
    ∧ (∀ t : TrajectoryData,
        calculateQualityScore t = specQualityScore t.success t.metrics)
    ∧ calculateQualityScore exampleTrajectory = some (1 / 10) := by
  refine ⟨?_, fun t => quality_scorer_agrees t, ?_⟩
  · intro t h
    unfold calculateQualityScore
    rw [h]
    simp
  · simp only [calculateQualityScore, exampleTrajectory]
    norm_num

/-- Closed instantiation of the previous theorem at the worked example. -/
theorem quality_score_matches_spec_witness :
    calculateQualityScore exampleTrajectory = some (1 / 10) :=
  quality_score_matches_spec.2.2

/-! ## Recorder lifecycle (trajectory-recorder.service.ts) -/

/-- `shouldRecord`: recording must be enabled, not paused, and the provider
allow-list (when non-empty) must contain the provider. -/
def shouldRecord (config : TrajectoryRecordingConfig) (paused : Bool)
    (modelProvider : String) : Bool :=
  if !config.enabled then false
  else if paused then false
  else if config.modelProviders.length = 0 then true
  else config.modelProviders.contains modelProvider

/-- The fresh record installed by `startTrajectory`. -/
def freshTrajectoryData (taskId modelProvider modelName : String)
    (now : ℤ) : TrajectoryData :=
  { taskId := taskId
    modelProvider := modelProvider
    modelName := modelName
    success := false
    startedAt := now
    completedAt := none
    iterations := []
    metrics :=
      { iterationCount := 0
        toolCallsCount := 0
        tokenUsage := ⟨0, 0, 0⟩
        errorRate := 0
        clickAccuracy := none
        userInterventions := 0 } }

/-- `startTrajectory`: a no-op unless eligible, otherwise unconditionally
`set` a fresh record into the active map. -/
def startTrajectory (config : TrajectoryRecordingConfig) (paused : Bool)
    (active : List (String × TrajectoryData))
    (taskId modelProvider modelName : String) (now : ℤ) :
    List (String × TrajectoryData) :=
  if !shouldRecord config paused modelProvider then active
  else mapSet active taskId (freshTrajectoryData taskId modelProvider modelName now)

/-- `completeTrajectory`.  The clock is `now` (epoch milliseconds) and the
outcome of the database write is the explicit `saveResult` parameter; the
returned `Except` is what the caller of the promise observes. -/
def completeTrajectory (config : TrajectoryRecordingConfig) (now : ℤ)
    (saveResult : Except String Unit)
    (active : List (String × TrajectoryData)) (taskId : String)
    (success : Bool) (additionalMetrics : Option PartialMetrics) :
    List (String × TrajectoryData) × Except String Unit :=
  match mapLookup active taskId with
  | none => (active, Except.ok ())
  | some trajectory =>
    let duration : ℚ := ((now - trajectory.startedAt : ℤ) : ℚ) / 1000
    if duration < config.minDuration then
      (mapDelete active taskId, Except.ok ())
    else
      let trajectory :=
        { trajectory with
            success := success
            completedAt := some now
            metrics :=
              match additionalMetrics with
              | some e => mergeMetrics trajectory.metrics e
              | none => trajectory.metrics }
      let _qualityScore := calculateQualityScore trajectory
      if !success && !config.recordFailures then
        (mapDelete active taskId, Except.ok ())
      else
        match saveResult with
        | Except.ok _ => (mapDelete active taskId, Except.ok ())
        | Except.error _ => (mapDelete active taskId, Except.ok ())

/-- `cancelTrajectory` discards the in-memory record unconditionally. -/
def cancelTrajectory (active : List (String × TrajectoryData))
    (taskId : String) : List (String × TrajectoryData) :=
  mapDelete active taskId

theorem mapLookup_mapDelete {α : Type} (m : List (String × α)) (k : String) :
    mapLookup (mapDelete m k) k = none := by
  unfold mapLookup mapDelete
  rw [List.find?_eq_none.mpr]
  · rfl
  · intro p hp
    have := List.of_mem_filter hp
    simpa using this

/-- C3: completing a trajectory never propagates a persistence error to the
caller, and on every path (missing record, too-short discard, failure-policy
discard, successful persist, failed persist) the in-memory record for the
task id is gone afterwards. -/
theorem complete_swallows_errors_and_releases
    (config : TrajectoryRecordingConfig) (now : ℤ)
    (saveResult : Except String Unit)
    (active : List (String × TrajectoryData)) (taskId : String)
    (success : Bool) (additionalMetrics : Option PartialMetrics) :
    (completeTrajectory config now saveResult active taskId success
        additionalMetrics).2 = Except.ok ()
    ∧ mapLookup (completeTrajectory config now saveResult active taskId success
        additionalMetrics).1 taskId = none := by
  unfold completeTrajectory
  cases hl : mapLookup active taskId with
  | none => exact ⟨rfl, hl⟩
  | some trajectory =>
    dsimp only
    split_ifs with h1 h2
    · exact ⟨rfl, mapLookup_mapDelete active taskId⟩
    · exact ⟨rfl, mapLookup_mapDelete active taskId⟩
    · cases saveResult with
      | ok u => exact ⟨rfl, mapLookup_mapDelete active taskId⟩
      | error e => exact ⟨rfl, mapLookup_mapDelete active taskId⟩

theorem mapLookup_mapSet_self {α : Type} (m : List (String × α))
    (k : String) (v : α) : mapLookup (mapSet m k v) k = some v := by
  unfold mapLookup mapSet
  split_ifs with h
  · induction m with
    | nil => simp at h
    | cons p rest ih =>
      by_cases hp : p.1 = k
      · simp [List.find?, hp]
      · rcases List.any_eq_true.mp h with ⟨q, hq, hqk⟩
        have hqk' : q.1 = k := by simpa using hqk
        rcases List.mem_cons.mp hq with rfl | hq'
        · exact absurd hqk' hp
        · have hrest : rest.any (fun p => p.1 = k) = true :=
            List.any_eq_true.mpr ⟨q, hq', by simpa using hqk'⟩
          simpa [List.find?, hp] using ih hrest
  · induction m with
    | nil => simp [List.find?]
    | cons p rest ih =>
      have hp : ¬ p.1 = k := by
        intro hk
        exact h (List.any_eq_true.mpr ⟨p, List.mem_cons_self p rest, by simpa using hk⟩)
      have hrest : ¬ rest.any (fun p => p.1 = k) = true := by
        intro hk
        rcases List.any_eq_true.mp hk with ⟨q, hq, hqk⟩
        exact h (List.any_eq_true.mpr ⟨q, List.mem_cons_of_mem p hq, hqk⟩)
      simpa [List.find?, hp] using ih hrest

/-- C10 (implicit): starting a trajectory for a task that is already being
recorded, with the eligibility predicate true, silently installs a fresh
empty record in place of the accumulated one — no error, no persistence. -/
theorem start_replaces_existing_record
    (config : TrajectoryRecordingConfig) (paused : Bool)
    (active : List (String × TrajectoryData))
    (taskId modelProvider modelName : String) (now : ℤ)
    (old : TrajectoryData)
    (helig : shouldRecord config paused modelProvider = true)
    (_hrec : mapLookup active taskId = some old) :
    mapLookup (startTrajectory config paused active taskId modelProvider
        modelName now) taskId
      = some (freshTrajectoryData taskId modelProvider modelName now) := by
  unfold startTrajectory
  rw [helig]
  exact mapLookup_mapSet_self active taskId _

/-- Witness for C10 at a concrete already-recording state. -/
theorem start_replaces_existing_record_witness :
    mapLookup (startTrajectory ⟨true, [], 5, true⟩ false
        [("t1", exampleTrajectory)] "t1" "openai" "gpt" 7) "t1"
      = some (freshTrajectoryData "t1" "openai" "gpt" 7) :=
  start_replaces_existing_record ⟨true, [], 5, true⟩ false
    [("t1", exampleTrajectory)] "t1" "openai" "gpt" 7 exampleTrajectory
    (by decide) (by rfl)

/-! ## Embedding client and cache (trajectory-search.service.ts) -/

/-- An embedding vector. -/
abbrev Vec := List ℚ

/-- `generateEmbedding`: throws when no client is configured, serves cache
hits unchanged, and on a miss calls the provider (the `api` parameter), then
evicts the first-inserted key when the cache size exceeds 100 before caching
the new vector.  The result carries the updated cache state. -/
def generateEmbedding (openaiPresent : Bool) (api : String → Except String Vec)
    (embeddingCache : List (String × Vec)) (text : String) :
    Except String (Vec × List (String × Vec)) :=
  if !openaiPresent then
    Except.error "OpenAI client missing"
  else
    match mapLookup embeddingCache text with
    | some v => Except.ok (v, embeddingCache)
    | none =>
      match api text with
      | Except.error e => Except.error e
      | Except.ok embedding =>
        let embeddingCache :=
          if embeddingCache.length > 100 then embeddingCache.drop 1
          else embeddingCache
        Except.ok (embedding, mapSet embeddingCache text embedding)

/-- Run a sequence of `generateEmbedding` calls, threading the cache; a call
that throws leaves the cache as it was. -/
def runEmbedCalls (openaiPresent : Bool) (api : String → Except String Vec)
    (texts : List String) (embeddingCache : List (String × Vec)) :
    List (String × Vec) :=
  texts.foldl
    (fun cache text =>
      match generateEmbedding openaiPresent api cache text with
      | Except.ok (_, cache') => cache'
      | Except.error _ => cache)
    embeddingCache

theorem mapLookup_eq_none_iff {α : Type} (m : List (String × α)) (k : String) :
    mapLookup m k = none ↔ ∀ p ∈ m, p.1 ≠ k := by
  unfold mapLookup
  rw [Option.map_eq_none', List.find?_eq_none]
  simp

theorem length_mapSet_of_absent {α : Type} (m : List (String × α))
    (k : String) (v : α) (h : ∀ p ∈ m, p.1 ≠ k) :
    mapSet m k v = m ++ [(k, v)] := by
  unfold mapSet
  rw [if_neg]
  intro hany
  rcases List.any_eq_true.mp hany with ⟨q, hq, hqk⟩
  exact h q hq (by simpa using hqk)

theorem embed_cache_step_length (openaiPresent : Bool)
    (api : String → Except String Vec) (cache : List (String × Vec))
    (text : String) (h : cache.length ≤ 101) :
    (match generateEmbedding openaiPresent api cache text with
     | Except.ok (_, cache') => cache'
     | Except.error _ => cache).length ≤ 101 := by
  unfold generateEmbedding
  cases openaiPresent with
  | false => simpa using h
  | true =>
    simp only [Bool.not_true, Bool.false_eq_true, if_false, reduceIte]
    cases hl : mapLookup cache text with
    | some v => simpa using h
    | none =>
      cases api text with
      | error e => simpa using h
      | ok embedding =>
        have habsent := (mapLookup_eq_none_iff cache text).mp hl
        dsimp only
        split_ifs with hlen
        · have habsent' : ∀ p ∈ cache.drop 1, p.1 ≠ text :=
            fun p hp => habsent p (List.mem_of_mem_drop hp)
          rw [length_mapSet_of_absent _ _ _ habsent']
          simp only [List.length_append, List.length_drop, List.length_cons,
            List.length_nil]
          omega
        · rw [length_mapSet_of_absent _ _ _ habsent]
          simp only [List.length_append, List.length_cons, List.length_nil]
          omega

theorem runEmbedCalls_length (openaiPresent : Bool)
    (api : String → Except String Vec) (texts : List String)
    (cache : List (String × Vec)) (h : cache.length ≤ 101) :
    (runEmbedCalls openaiPresent api texts cache).length ≤ 101 := by
  induction texts generalizing cache with
  | nil => simpa [runEmbedCalls] using h
  | cons t rest ih =>
    have hstep := embed_cache_step_length openaiPresent api cache t h
    show (runEmbedCalls openaiPresent api rest
      (match generateEmbedding openaiPresent api cache t with
       | Except.ok (_, cache') => cache'
       | Except.error _ => cache)).length ≤ 101
    exact ih _ hstep

/-- 101 pairwise distinct query texts. -/
def cacheTexts : List String := (List.range 101).map (fun n => toString n)

/-- A provider stub answering every request with the same vector. -/
def constApi : String → Except String Vec := fun _ => Except.ok [1]

set_option maxRecDepth 10000 in
/-- C6 counterexample: after 101 distinct successful calls starting from an
empty cache, the cache holds 101 entries, so the claimed bound of 100 is
violated (eviction only fires when the size already exceeds 100). -/
theorem cache_exceeds_100 :
    (runEmbedCalls true constApi cacheTexts []).length = 101
    ∧ ¬ (runEmbedCalls true constApi cacheTexts []).length ≤ 100 := by
  constructor <;> decide

/-- C6 as amended: the cache is bounded by 101 entries under any sequence of
calls from any state within the bound, and when an insertion happens with the
size above 100 the evicted entry is exactly the first-inserted (oldest) one,
i.e. the new cache is the old one minus its head plus the new binding. -/
theorem cache_bounded_and_fifo (api : String → Except String Vec)
    (texts : List String) (cache : List (String × Vec)) (text : String)
    (embedding : Vec) (h : cache.length ≤ 101) :
    (runEmbedCalls true api texts cache).length ≤ 101
    ∧ (cache.length = 101 → mapLookup cache text = none →
        api text = Except.ok embedding →
        generateEmbedding true api cache text
          = Except.ok (embedding, cache.drop 1 ++ [(text, embedding)])) := by
  constructor
  · exact runEmbedCalls_length true api texts cache h
  · intro hfull hmiss hok
    unfold generateEmbedding
    rw [hmiss, hok]
    simp only [Bool.not_true, Bool.false_eq_true, if_false, reduceIte]
    have habsent := (mapLookup_eq_none_iff cache text).mp hmiss
    have habsent' : ∀ p ∈ cache.drop 1, p.1 ≠ text :=
      fun p hp => habsent p (List.mem_of_mem_drop hp)
    rw [if_pos (by omega), length_mapSet_of_absent _ _ _ habsent']

set_option maxRecDepth 10000 in
/-- Closed instantiation of the amended cache bound at a concrete state. -/
theorem cache_bounded_and_fifo_witness :
    (runEmbedCalls true constApi ["a", "b"] []).length ≤ 101
    ∧ generateEmbedding true constApi (cacheTexts.map (fun t => (t, [1]))) "x"
        = Except.ok ([1],
            (cacheTexts.map (fun t => (t, ([1] : Vec)))).drop 1 ++ [("x", [1])]) :=
  ⟨(cache_bounded_and_fifo constApi ["a", "b"] [] "x" [1] (by decide)).1,
   (cache_bounded_and_fifo constApi []
      (cacheTexts.map (fun t => (t, [1]))) "x" [1] (by decide)).2
     (by decide) (by decide) rfl⟩

/-! ## Embedding storage (trajectory-search.service.ts, storeEmbedding) -/

/-- A row of the TrajectoryEmbedding relation; the generated id and the
timestamps are not modelled. -/
structure EmbeddingRow where
  trajectoryId : String
  taskDescription : String
  embedding : Vec
deriving Repr, DecidableEq

/-- The `INSERT ... ON CONFLICT ("trajectoryId") DO UPDATE` statement issued
by `storeEmbedding`: the trajectory id column is unique, so a conflicting row
is updated in place, otherwise a new row is inserted. -/
def upsertEmbeddingRow (rows : List EmbeddingRow)
    (trajectoryId taskDescription : String) (embedding : Vec) :
    List EmbeddingRow :=
  if rows.any (fun r => r.trajectoryId = trajectoryId) then
    rows.map (fun r =>
      if r.trajectoryId = trajectoryId then
        { r with taskDescription := taskDescription, embedding := embedding }
      else r)
  else
    rows ++ [⟨trajectoryId, taskDescription, embedding⟩]

/-- `storeEmbedding`: skipped without a client, embedding failures swallowed,
otherwise the upsert above.  The embedding call outcome is a parameter. -/
def storeEmbedding (openaiPresent : Bool) (embedResult : Except String Vec)
    (rows : List EmbeddingRow) (trajectoryId taskDescription : String) :
    List EmbeddingRow :=
  if !openaiPresent then rows
  else
    match embedResult with
    | Except.error _ => rows
    | Except.ok embedding =>
      upsertEmbeddingRow rows trajectoryId taskDescription embedding

/-- The rows of the embedding relation belonging to one trajectory id. -/
def embeddingRowsFor (rows : List EmbeddingRow) (trajectoryId : String) :
    List EmbeddingRow :=
  rows.filter (fun r => r.trajectoryId = trajectoryId)

theorem upsert_rowsFor (rows : List EmbeddingRow)
    (trajectoryId taskDescription : String) (embedding : Vec)
    (h : (embeddingRowsFor rows trajectoryId).length ≤ 1) :
    embeddingRowsFor
        (upsertEmbeddingRow rows trajectoryId taskDescription embedding)
        trajectoryId
      = [⟨trajectoryId, taskDescription, embedding⟩] := by
  unfold upsertEmbeddingRow embeddingRowsFor
  split_ifs with hany
  · rcases List.any_eq_true.mp hany with ⟨r0, hr0, hr0t⟩
    have hr0t' : r0.trajectoryId = trajectoryId := by simpa using hr0t
    rw [List.filter_map]
    simp only [Function.comp_def]
    have hcomp : ∀ r ∈ rows,
        (decide (((if r.trajectoryId = trajectoryId then
              ({ r with taskDescription := taskDescription,
                        embedding := embedding } : EmbeddingRow)
            else r)).trajectoryId = trajectoryId))
          = decide (r.trajectoryId = trajectoryId) := by
      intro r _
      by_cases hr : r.trajectoryId = trajectoryId <;> simp [hr]
    rw [List.filter_congr hcomp]
    have hmem : r0 ∈ rows.filter
        (fun r : EmbeddingRow => decide (r.trajectoryId = trajectoryId)) :=
      List.mem_filter.mpr ⟨hr0, by simpa using hr0t'⟩
    have hlen1 : (rows.filter
        (fun r : EmbeddingRow => decide (r.trajectoryId = trajectoryId))).length = 1 := by
      have hpos : 0 < (rows.filter
          (fun r : EmbeddingRow => decide (r.trajectoryId = trajectoryId))).length :=
        List.length_pos.mpr (List.ne_nil_of_mem hmem)
      have hle : (rows.filter
          (fun r : EmbeddingRow => decide (r.trajectoryId = trajectoryId))).length ≤ 1 := by
        simpa [embeddingRowsFor] using h
      omega
    rcases List.length_eq_one.mp hlen1 with ⟨a, ha⟩
    have hat : a.trajectoryId = trajectoryId := by
      have : a ∈ rows.filter
          (fun r : EmbeddingRow => decide (r.trajectoryId = trajectoryId)) := by
        rw [ha]; exact List.mem_singleton_self a
      simpa using (List.mem_filter.mp this).2
    rw [ha]
    simp [hat]
  · have hnone : ∀ r ∈ rows, ¬ r.trajectoryId = trajectoryId := by
      intro r hr hrt
      exact hany (List.any_eq_true.mpr ⟨r, hr, by simpa using hrt⟩)
    rw [List.filter_append]
    have h1 : rows.filter
        (fun r : EmbeddingRow => decide (r.trajectoryId = trajectoryId)) = [] :=
      List.filter_eq_nil_iff.mpr (fun r hr => by simpa using hnone r hr)
    rw [h1]
    simp

/-- C5: with a configured client and successful embedding calls, running
`storeEmbedding` twice for the same trajectory id — with the same or
different text — leaves exactly one embedding row for that id, carrying the
text and vector of the second call.  The hypothesis is the uniqueness
invariant of the `trajectoryId` column on the starting state. -/
theorem store_embedding_upsert_idempotent (rows : List EmbeddingRow)
    (trajectoryId text1 text2 : String) (vec1 vec2 : Vec)
    (h : (embeddingRowsFor rows trajectoryId).length ≤ 1) :
    embeddingRowsFor
        (storeEmbedding true (Except.ok vec2)
          (storeEmbedding true (Except.ok vec1) rows trajectoryId text1)
          trajectoryId text2)
        trajectoryId
      = [⟨trajectoryId, text2, vec2⟩] := by
  unfold storeEmbedding
  simp only [Bool.not_true, Bool.false_eq_true, if_false, reduceIte]
  have h1 := upsert_rowsFor rows trajectoryId text1 vec1 h
  have h2 := upsert_rowsFor
    (upsertEmbeddingRow rows trajectoryId text1 vec1) trajectoryId text2 vec2
    (by rw [h1]; simp)
  exact h2

/-- Witness for C5 from the empty relation with two different texts. -/
theorem store_embedding_upsert_idempotent_witness :
    embeddingRowsFor
        (storeEmbedding true (Except.ok [2])
          (storeEmbedding true (Except.ok [1]) [] "traj-1" "open settings")
          "traj-1" "change theme")
        "traj-1"
      = [⟨"traj-1", "change theme", [2]⟩] :=
  store_embedding_upsert_idempotent [] "traj-1" "open settings" "change theme"
    [1] [2] (by decide)

/-! ## Condensation (trajectory-search.service.ts, condenseTrajectory) -/

/-- A persisted step row of the TrajectoryStep relation (fields the search
and export services consult). -/
structure DbStep where
  iterationNumber : Nat
  systemPrompt : String
  messagesSnapshot : Option (List Msg)
  toolCalls : Option (List ToolCall)
  reasoning : String
deriving Repr, DecidableEq

/-- A trajectory row joined with its steps and the owning task description. -/
structure DbTrajectory where
  id : String
  taskId : String
  modelProvider : String
  modelName : String
  success : Bool
  qualityScore : Option ℚ
  iterationCount : Nat
  toolCallsCount : Nat
  startedAt : ℤ
  steps : List DbStep
  taskDescription : String
deriving Repr, DecidableEq

/-- `text.split(".")[0]`: the prefix of the string before the first period
(the whole string when no period occurs). -/
def firstSentence (s : String) : String :=
  String.mk (s.toList.takeWhile (fun c => c ≠ '.'))

/-- The key steps one step contributes in `condenseTrajectory`: its reasoning
truncated to 200 characters when present, otherwise the first sentence of
every nonempty text block of every assistant message of its snapshot, kept
when strictly longer than 10 and strictly shorter than 150 characters. -/
def stepKeySteps (step : DbStep) : List String :=
  if step.reasoning ≠ "" then
    [step.reasoning.take 200]
  else
    match step.messagesSnapshot with
    | some msgs =>
      msgs.flatMap (fun msg =>
        if msg.role = "assistant" then
          match msg.content with
          | MsgContent.blocks bs =>
            bs.filterMap (fun block =>
              if block.type = "text" ∧ block.text ≠ "" then
                let fs := firstSentence block.text
                if 10 < fs.length ∧ fs.length < 150 then some fs else none
              else none)
          | _ => []
        else [])
    | none => []

/-- The de-duplicated set of tool names across all steps, in first-use
order (the JS `Set` keeps insertion order). -/
def condenseToolsUsed (steps : List DbStep) : List String :=
  steps.foldl
    (fun acc step =>
      match step.toolCalls with
      | some toolCalls =>
        toolCalls.foldl
          (fun acc2 toolCall =>
            if toolCall.name ≠ "" ∧ toolCall.name ∉ acc2 then
              acc2 ++ [toolCall.name]
            else acc2)
          acc
      | none => acc)
    []

/-- Condensed few-shot example for prompt injection. -/
structure CondensedExample where
  taskDescription : String
  keySteps : List String
  toolsUsed : List String
  outcome : String
  reasoning : String
deriving Repr, DecidableEq

/-- `condenseTrajectory`: key steps from all steps limited to 5, the tool
name set, the outcome label, and the first-step reasoning (truncated to 300)
with a fixed fallback phrase. -/
def condenseTrajectory (trajectory : DbTrajectory) : CondensedExample :=
  let keySteps := trajectory.steps.flatMap stepKeySteps
  let limitedSteps := keySteps.take 5
  { taskDescription := trajectory.taskDescription
    keySteps := limitedSteps
    toolsUsed := condenseToolsUsed trajectory.steps
    outcome := if trajectory.success then "Completed successfully" else "Failed"
    reasoning :=
      match trajectory.steps.head? with
      | some s =>
        if s.reasoning ≠ "" then s.reasoning.take 300
        else "Systematic approach with observation and verification"
      | none => "Systematic approach with observation and verification" }

/-- A step without reasoning whose single assistant message holds two
qualifying text blocks. -/
def twoSentenceStep : DbStep :=
  { iterationNumber := 1
    systemPrompt := "sys"
    messagesSnapshot := some
      [⟨"assistant", MsgContent.blocks
          [⟨"text", "AAAAAAAAAAAA"⟩, ⟨"text", "BBBBBBBBBBBB"⟩]⟩]
    toolCalls := none
    reasoning := "" }

/-- A one-iteration trajectory built from the step above. -/
def twoSentenceTrajectory : DbTrajectory :=
  { id := "id1"
    taskId := "t1"
    modelProvider := "anthropic"
    modelName := "m"
    success := true
    qualityScore := some 1
    iterationCount := 1
    toolCallsCount := 0
    startedAt := 0
    steps := [twoSentenceStep]
    taskDescription := "open settings" }

/-- C7 counterexample: a single iteration without reasoning text contributes
two admitted sentences (one per text block of the same assistant message), so
the claimed cap of one sentence per iteration is violated. -/
theorem condense_two_sentences_from_one_iteration :
    (condenseTrajectory twoSentenceTrajectory).keySteps
      = ["AAAAAAAAAAAA", "BBBBBBBBBBBB"]
    ∧ twoSentenceTrajectory.steps.length = 1
    ∧ (∀ s, s ∈ twoSentenceTrajectory.steps → s.reasoning = "")
    ∧ ¬ (condenseTrajectory twoSentenceTrajectory).keySteps.length ≤
        twoSentenceTrajectory.steps.length := by
  refine ⟨by decide, by decide, ?_, by decide⟩
  intro s hs
  have hseq : s = twoSentenceStep := by
    simpa [twoSentenceTrajectory] using hs
  rw [hseq]
  rfl

/-- C7 as amended: condensation yields at most 5 key steps, and every key
step is either the (200-character-truncated) reasoning of a step, or — for a
step without reasoning — the first sentence of some nonempty text block of
some assistant message of that step, admitted only with length strictly
between 10 and 150; several blocks of one iteration may each contribute. -/
theorem condense_keysteps_bounded_and_sourced (trajectory : DbTrajectory) :
    (condenseTrajectory trajectory).keySteps.length ≤ 5
    ∧ ∀ k ∈ (condenseTrajectory trajectory).keySteps,
        ∃ step ∈ trajectory.steps,
          (step.reasoning ≠ "" ∧ k = step.reasoning.take 200)
          ∨ (step.reasoning = ""
             ∧ ∃ msgs, step.messagesSnapshot = some msgs
             ∧ ∃ msg ∈ msgs, msg.role = "assistant"
             ∧ ∃ bs, msg.content = MsgContent.blocks bs
             ∧ ∃ block ∈ bs, block.type = "text" ∧ block.text ≠ ""
               ∧ k = firstSentence block.text
               ∧ 10 < k.length ∧ k.length < 150) := by
  constructor
  · show (List.take 5 _).length ≤ 5
    rw [List.length_take]
    omega
  · intro k hk
    have hk' : k ∈ trajectory.steps.flatMap stepKeySteps :=
      List.take_subset 5 _ hk
    rcases List.mem_flatMap.mp hk' with ⟨step, hstep, hks⟩
    refine ⟨step, hstep, ?_⟩
    unfold stepKeySteps at hks
    split_ifs at hks with hr
    · left
      refine ⟨hr, ?_⟩
      simpa using hks
    · right
      refine ⟨by simpa using hr, ?_⟩
      cases hsnap : step.messagesSnapshot with
      | none => rw [hsnap] at hks; simp at hks
      | some msgs =>
        rw [hsnap] at hks
        refine ⟨msgs, rfl, ?_⟩
        rcases List.mem_flatMap.mp hks with ⟨msg, hmsg, hkmsg⟩
        refine ⟨msg, hmsg, ?_⟩
        split_ifs at hkmsg with hrole
        · refine ⟨hrole, ?_⟩
          cases hcont : msg.content with
          | str s => rw [hcont] at hkmsg; simp at hkmsg
          | other s => rw [hcont] at hkmsg; simp at hkmsg
          | blocks bs =>
            rw [hcont] at hkmsg
            refine ⟨bs, rfl, ?_⟩
            rcases List.mem_filterMap.mp hkmsg with ⟨block, hblock, hbk⟩
            refine ⟨block, hblock, ?_⟩
            dsimp only at hbk
            split_ifs at hbk with h1 h2
            · rcases Option.some.inj hbk with rfl
              exact ⟨h1.1, h1.2, rfl, h2.1, h2.2⟩
        · simp at hkmsg

/-- Closed instantiation of the amended condensation bound. -/
theorem condense_keysteps_bounded_witness :
    (condenseTrajectory twoSentenceTrajectory).keySteps.length ≤ 5 :=
  (condense_keysteps_bounded_and_sourced twoSentenceTrajectory).1


/-! ## Similarity search (trajectory-search.service.ts, findSimilar) -/

/-- Configuration for few-shot learning. -/
structure FewShotConfig where
  enabled : Bool
  count : Nat
  similarityThreshold : Option ℚ
  sourceProviders : List String
deriving Repr, DecidableEq

/-- Search parameters for finding similar trajectories. -/
structure TrajectorySearchParams where
  taskDescription : String
  topK : Option Nat
  minSimilarity : Option ℚ
  modelProvider : Option String
  successOnly : Option Bool
  minQuality : Option ℚ
deriving Repr, DecidableEq

/-- JS `a || b` over an optional number: both absence and zero (falsy) fall
through to the default. -/
def jsOrQ (a : Option ℚ) (b : ℚ) : ℚ :=
  match a with
  | some x => if x = 0 then b else x
  | none => b

/-- JS `a || b` over an optional count. -/
def jsOrNat (a : Option Nat) (b : Nat) : Nat :=
  match a with
  | some x => if x = 0 then b else x
  | none => b

/-- JS truthiness of an optional string used as a filter guard: the empty
string is falsy, so it disables the filter. -/
def jsTruthyStr : Option String → Option String
  | some s => if s = "" then none else some s
  | none => none

/-- JS truthiness of an optional number used as a filter guard. -/
def jsTruthyQ : Option ℚ → Option ℚ
  | some x => if x = 0 then none else some x
  | none => none

/-- The effective minimum similarity of a search:
`params.minSimilarity || config.similarityThreshold || 0.7`. -/
def effectiveMinSimilarity (params : TrajectorySearchParams)
    (config : FewShotConfig) : ℚ :=
  jsOrQ params.minSimilarity (jsOrQ config.similarityThreshold 0.7)

/-- One row of the raw similarity query result (the SELECT list of the
source, with `similarity = 1 - distance`). -/
structure CandidateRow where
  id : String
  taskId : String
  modelProvider : String
  modelName : String
  success : Bool
  qualityScore : Option ℚ
  iterationCount : Nat
  toolCallsCount : Nat
  startedAt : ℤ
  similarity : ℚ
deriving Repr, DecidableEq

/-- The persistent store visible to the search service. -/
structure TrajectoryStore where
  trajectories : List DbTrajectory
  embeddings : List EmbeddingRow
deriving Repr, DecidableEq

/-- A similar trajectory search hit. -/
structure SimilarTrajectory where
  trajectory : DbTrajectory
  similarity : ℚ
  condensedExample : CondensedExample
deriving Repr, DecidableEq

/-- The WHERE clause of the raw similarity query. -/
def candidatePasses (successOnly : Bool) (modelProvider : Option String)
    (minQuality : Option ℚ) (sourceProviders : List String)
    (te : DbTrajectory × ℚ) : Bool :=
  (te.1.success == successOnly)
  && (match modelProvider with
      | some p => te.1.modelProvider == p
      | none => true)
  && (match minQuality with
      | some q =>
        match te.1.qualityScore with
        | some s => decide (q ≤ s)
        | none => false
      | none => true)
  && (if sourceProviders.isEmpty then true
      else sourceProviders.contains te.1.modelProvider)

/-- The raw pgvector query of `findSimilar`: join each trajectory with its
embedding row, apply the success / provider / quality / source-provider
filters server-side, order by vector distance to the query embedding
ascending, limit to `topK`, and report `1 - distance` as similarity. -/
def similarityQuery (store : TrajectoryStore) (dist : Vec → Vec → ℚ)
    (queryEmbedding : Vec) (successOnly : Bool) (modelProvider : Option String)
    (minQuality : Option ℚ) (sourceProviders : List String) (topK : Nat) :
    List CandidateRow :=
  let joined := store.trajectories.flatMap (fun t =>
    (store.embeddings.filter (fun e => e.trajectoryId = t.id)).map
      (fun e => (t, dist e.embedding queryEmbedding)))
  let filtered := joined.filter
    (candidatePasses successOnly modelProvider minQuality sourceProviders)
  let sorted := filtered.insertionSort (fun a b => a.2 ≤ b.2)
  (sorted.take topK).map (fun te =>
    { id := te.1.id
      taskId := te.1.taskId
      modelProvider := te.1.modelProvider
      modelName := te.1.modelName
      success := te.1.success
      qualityScore := te.1.qualityScore
      iterationCount := te.1.iterationCount
      toolCallsCount := te.1.toolCallsCount
      startedAt := te.1.startedAt
      similarity := 1 - te.2 })

/-- `findUnique` with steps ordered by iteration number ascending. -/
def loadTrajectory (store : TrajectoryStore) (id : String) :
    Option DbTrajectory :=
  match store.trajectories.find? (fun t => t.id = id) with
  | some t =>
    some { t with
      steps := t.steps.insertionSort
        (fun a b => a.iterationNumber ≤ b.iterationNumber) }
  | none => none

/-- `isAvailable`: few-shot learning enabled and a client configured. -/
def isAvailable (config : FewShotConfig) (openaiPresent : Bool) : Bool :=
  config.enabled && openaiPresent

/-- `findSimilar`.  The outcome of the embedding call and a flag for a
failing store query stand for the try/catch of the source: every caught
error yields the empty list. -/
def findSimilar (config : FewShotConfig) (openaiPresent : Bool)
    (embedResult : Except String Vec) (queryFails : Bool)
    (store : TrajectoryStore) (dist : Vec → Vec → ℚ)
    (params : TrajectorySearchParams) : List SimilarTrajectory :=
  if !(isAvailable config openaiPresent) then []
  else
    match embedResult with
    | Except.error _ => []
    | Except.ok queryEmbedding =>
      if queryFails then []
      else
        let topK := jsOrNat params.topK config.count
        let minSimilarity := effectiveMinSimilarity params config
        let successOnly : Bool := params.successOnly != some false
        let results := similarityQuery store dist queryEmbedding successOnly
          (jsTruthyStr params.modelProvider) (jsTruthyQ params.minQuality)
          config.sourceProviders topK
        results.filterMap (fun result =>
          if result.similarity < minSimilarity then none
          else
            match loadTrajectory store result.id with
            | none => none
            | some trajectory =>
              some { trajectory := trajectory
                     similarity := result.similarity
                     condensedExample := condenseTrajectory trajectory })

instance distPairTotal :
    IsTotal (DbTrajectory × ℚ) (fun a b => a.2 ≤ b.2) :=
  ⟨fun a b => le_total a.2 b.2⟩

instance distPairTrans :
    IsTrans (DbTrajectory × ℚ) (fun a b => a.2 ≤ b.2) :=
  ⟨fun _ _ _ hab hbc => le_trans hab hbc⟩

theorem pairwise_similarityQuery (store : TrajectoryStore)
    (dist : Vec → Vec → ℚ) (queryEmbedding : Vec) (successOnly : Bool)
    (modelProvider : Option String) (minQuality : Option ℚ)
    (sourceProviders : List String) (topK : Nat) :
    List.Pairwise (fun a b => b.similarity ≤ a.similarity)
      (similarityQuery store dist queryEmbedding successOnly modelProvider
        minQuality sourceProviders topK) := by
  unfold similarityQuery
  dsimp only
  rw [List.pairwise_map]
  have hsorted := List.sorted_insertionSort
    (fun a b : DbTrajectory × ℚ => a.2 ≤ b.2)
    ((store.trajectories.flatMap (fun t =>
      (store.embeddings.filter (fun e => e.trajectoryId = t.id)).map
        (fun e => (t, dist e.embedding queryEmbedding)))).filter
      (candidatePasses successOnly modelProvider minQuality sourceProviders))
  have htake := hsorted.sublist (List.take_sublist topK _)
  exact htake.imp (fun h => by simpa using sub_le_sub_left h 1)

/-- C2: no returned hit has similarity strictly below the effective
minimum-similarity threshold, and the result list is sorted by similarity in
descending order. -/
theorem find_similar_threshold_and_sorted (config : FewShotConfig)
    (openaiPresent : Bool) (embedResult : Except String Vec)
    (queryFails : Bool) (store : TrajectoryStore) (dist : Vec → Vec → ℚ)
    (params : TrajectorySearchParams) :
    (∀ x ∈ findSimilar config openaiPresent embedResult queryFails store
        dist params, effectiveMinSimilarity params config ≤ x.similarity)
    ∧ List.Pairwise (fun a b => b.similarity ≤ a.similarity)
        (findSimilar config openaiPresent embedResult queryFails store dist
          params) := by
  unfold findSimilar
  cases hav : isAvailable config openaiPresent with
  | false => constructor <;> simp
  | true =>
    cases embedResult with
    | error e => constructor <;> simp
    | ok queryEmbedding =>
      cases queryFails with
      | true => constructor <;> simp
      | false =>
        simp only [Bool.not_true, Bool.false_eq_true, if_false, reduceIte]
        constructor
        · intro x hx
          rcases List.mem_filterMap.mp hx with ⟨result, hres, hfx⟩
          split_ifs at hfx with hsim
          cases hload : loadTrajectory store result.id with
          | none => rw [hload] at hfx; simp at hfx
          | some trajectory =>
            rw [hload] at hfx
            rcases Option.some.inj hfx with rfl
            exact not_lt.mp hsim
        · rw [List.pairwise_filterMap]
          have hq := pairwise_similarityQuery store dist queryEmbedding
            (params.successOnly != some false)
            (jsTruthyStr params.modelProvider) (jsTruthyQ params.minQuality)
            config.sourceProviders (jsOrNat params.topK config.count)
          refine hq.imp ?_
          intro a b hab x hx y hy
          by_cases h1 : a.similarity < effectiveMinSimilarity params config
          · rw [if_pos h1] at hx
            simp at hx
          · rw [if_neg h1] at hx
            by_cases h2 : b.similarity < effectiveMinSimilarity params config
            · rw [if_pos h2] at hy
              simp at hy
            · rw [if_neg h2] at hy
              cases hla : loadTrajectory store a.id with
              | none => rw [hla] at hx; simp at hx
              | some ta =>
                rw [hla] at hx
                cases hlb : loadTrajectory store b.id with
                | none => rw [hlb] at hy; simp at hy
                | some tb =>
                  rw [hlb] at hy
                  simp only [Option.mem_def, Option.some.injEq] at hx hy
                  rw [← hx, ← hy]
                  exact hab

/-- A distance operator stub declaring every pair of vectors identical. -/
def distZero : Vec → Vec → ℚ := fun _ _ => 0

/-- A store with one successful anthropic trajectory and its embedding. -/
def searchStoreEx : TrajectoryStore :=
  { trajectories := [twoSentenceTrajectory]
    embeddings := [⟨"id1", "open settings", [1]⟩] }

/-- The default few-shot configuration of the source. -/
def searchConfigEx : FewShotConfig :=
  { enabled := true
    count := 3
    similarityThreshold := some 0.7
    sourceProviders := ["anthropic"] }

/-- A search request leaving every optional parameter at its default. -/
def searchParamsEx : TrajectorySearchParams :=
  { taskDescription := "open settings"
    topK := none
    minSimilarity := none
    modelProvider := none
    successOnly := none
    minQuality := none }

set_option maxRecDepth 10000 in
/-- Closed instantiation of the C2 sortedness guarantee at a concrete search
over a one-trajectory store. -/
theorem find_similar_threshold_and_sorted_witness :
    List.Pairwise (fun a b => b.similarity ≤ a.similarity)
      (findSimilar searchConfigEx true (Except.ok [1]) false searchStoreEx
        distZero searchParamsEx) :=
  (find_similar_threshold_and_sorted searchConfigEx true (Except.ok [1])
    false searchStoreEx distZero searchParamsEx).2

/-- C4: `findSimilar` degrades to the empty list instead of raising: with no
client, with few-shot disabled, with a failed embedding call, with a failing
store query, and against a store holding no trajectories. -/
theorem find_similar_degrades_to_empty (config : FewShotConfig)
    (openaiPresent : Bool) (embedResult : Except String Vec)
    (queryFails : Bool) (store : TrajectoryStore) (dist : Vec → Vec → ℚ)
    (params : TrajectorySearchParams) (msg : String)
    (embeddings : List EmbeddingRow) :
    (findSimilar config false embedResult queryFails store dist params = [])
    ∧ (findSimilar ⟨false, config.count, config.similarityThreshold,
        config.sourceProviders⟩ openaiPresent embedResult queryFails store
        dist params = [])
    ∧ (findSimilar config openaiPresent (Except.error msg) queryFails store
        dist params = [])
    ∧ (findSimilar config openaiPresent embedResult true store dist
        params = [])
    ∧ (findSimilar config openaiPresent embedResult queryFails
        ⟨[], embeddings⟩ dist params = []) := by
  refine ⟨?_, ?_, ?_, ?_, ?_⟩
  · simp [findSimilar, isAvailable]
  · simp [findSimilar, isAvailable]
  · cases hav : isAvailable config openaiPresent <;>
      simp [findSimilar, hav]
  · cases hav : isAvailable config openaiPresent <;>
      cases embedResult <;>
      simp [findSimilar, hav]
  · cases hav : isAvailable config openaiPresent <;>
      cases embedResult <;>
      cases queryFails <;>
      simp [findSimilar, similarityQuery, List.insertionSort, hav]

/-! ## Exporter (trajectory-export.service.ts) -/

/-- A message of the generic chat (format A) export. -/
structure OAIMsg where
  role : String
  content : String
deriving Repr, DecidableEq

/-- `convertContentToOpenAI`: a plain string passes through, an array keeps
only its `text` blocks (their texts joined with newlines), anything else is
serialized. -/
def convertContentToOpenAI : MsgContent → String
  | MsgContent.str s => s
  | MsgContent.blocks bs =>
    String.intercalate "\n"
      ((bs.filter (fun block => block.type = "text")).map (fun block => block.text))
  | MsgContent.other serialized => serialized

/-- One push of the inner message loop of `convertToOpenAIFormat`: assistant
and user messages are flattened to role plus plain text, others skipped. -/
def openAIMsgStep (acc : List OAIMsg) (msg : Msg) : List OAIMsg :=
  if msg.role = "assistant" then
    acc ++ [⟨"assistant", convertContentToOpenAI msg.content⟩]
  else if msg.role = "user" then
    acc ++ [⟨"user", convertContentToOpenAI msg.content⟩]
  else acc

/-- One pass of the step loop of `convertToOpenAIFormat`. -/
def openAIStepFold (acc : List OAIMsg) (step : DbStep) : List OAIMsg :=
  match step.messagesSnapshot with
  | some msgs => msgs.foldl openAIMsgStep acc
  | none => acc

/-- `convertToOpenAIFormat`: a system message from the first step (when any),
one user message holding the task description, then the flattened snapshot
messages of every step in order. -/
def convertToOpenAIFormat (trajectory : DbTrajectory) : List OAIMsg :=
  let messages : List OAIMsg := []
  let messages :=
    match trajectory.steps with
    | [] => messages
    | s :: _ => messages ++ [⟨"system", s.systemPrompt⟩]
  let messages := messages ++ [⟨"user", trajectory.taskDescription⟩]
  trajectory.steps.foldl openAIStepFold messages

/-- The messages one step contributes to the format-A export, in isolation. -/
def stepOpenAIMessages (step : DbStep) : List OAIMsg :=
  openAIStepFold [] step

theorem openAIMsgStep_append (acc : List OAIMsg) (msg : Msg) :
    openAIMsgStep acc msg = acc ++ openAIMsgStep [] msg := by
  unfold openAIMsgStep
  split_ifs <;> simp

theorem foldl_openAIMsgStep (msgs : List Msg) (acc : List OAIMsg) :
    msgs.foldl openAIMsgStep acc = acc ++ msgs.foldl openAIMsgStep [] := by
  induction msgs generalizing acc with
  | nil => simp
  | cons m t ih =>
    show List.foldl openAIMsgStep (openAIMsgStep acc m) t
      = acc ++ List.foldl openAIMsgStep (openAIMsgStep [] m) t
    rw [ih (openAIMsgStep acc m), ih (openAIMsgStep [] m),
      openAIMsgStep_append acc m]
    simp

theorem openAIStepFold_append (acc : List OAIMsg) (step : DbStep) :
    openAIStepFold acc step = acc ++ stepOpenAIMessages step := by
  unfold stepOpenAIMessages openAIStepFold
  cases h : step.messagesSnapshot with
  | none => simp [h]
  | some msgs => simp [h, foldl_openAIMsgStep msgs acc]

theorem foldl_openAIStepFold (steps : List DbStep) (acc : List OAIMsg) :
    steps.foldl openAIStepFold acc = acc ++ steps.flatMap stepOpenAIMessages := by
  induction steps generalizing acc with
  | nil => simp
  | cons s t ih =>
    show List.foldl openAIStepFold (openAIStepFold acc s) t
      = acc ++ (stepOpenAIMessages s ++ t.flatMap stepOpenAIMessages)
    rw [ih (openAIStepFold acc s), openAIStepFold_append acc s]
    simp

/-- C9 as amended: for a trajectory with at least one step, the format-A
export is the system message holding the first step prompt, then one user
message holding the task description, then per step the flattened
assistant/user snapshot messages; and the flattening keeps only `text`
blocks — image and other non-text blocks are dropped without any
placeholder. -/
theorem convert_openai_structure (trajectory : DbTrajectory) (s0 : DbStep)
    (rest : List DbStep) (hsteps : trajectory.steps = s0 :: rest) :
    convertToOpenAIFormat trajectory
      = ⟨"system", s0.systemPrompt⟩ :: ⟨"user", trajectory.taskDescription⟩ ::
        trajectory.steps.flatMap stepOpenAIMessages
    ∧ (∀ bs, convertContentToOpenAI (MsgContent.blocks bs)
        = convertContentToOpenAI
            (MsgContent.blocks (bs.filter (fun block => block.type = "text")))) := by
  constructor
  · unfold convertToOpenAIFormat
    rw [hsteps]
    dsimp only
    rw [foldl_openAIStepFold]
    simp
  · intro bs
    unfold convertContentToOpenAI
    dsimp only
    rw [List.filter_filter]
    simp

/-- A step whose assistant message carries a text block and an image block. -/
def imageStep : DbStep :=
  { iterationNumber := 1
    systemPrompt := "sys"
    messagesSnapshot := some
      [⟨"assistant", MsgContent.blocks
          [⟨"text", "Click the button"⟩, ⟨"image", ""⟩]⟩]
    toolCalls := none
    reasoning := "" }

/-- The same step with the image block removed. -/
def noImageStep : DbStep :=
  { imageStep with
      messagesSnapshot := some
        [⟨"assistant", MsgContent.blocks [⟨"text", "Click the button"⟩]⟩] }

/-- A one-step trajectory around `imageStep`. -/
def imageTrajectory : DbTrajectory :=
  { id := "id2"
    taskId := "t2"
    modelProvider := "anthropic"
    modelName := "m"
    success := true
    qualityScore := some 1
    iterationCount := 1
    toolCallsCount := 0
    startedAt := 0
    steps := [imageStep]
    taskDescription := "task" }

/-- The same trajectory around `noImageStep`. -/
def noImageTrajectory : DbTrajectory :=
  { imageTrajectory with steps := [noImageStep] }

/-- C9 counterexample: the export of a snapshot holding an image block is
byte-identical to the export of the same snapshot with the image block
deleted — the image is omitted outright, no textual placeholder appears. -/
theorem image_blocks_dropped_without_placeholder :
    convertToOpenAIFormat imageTrajectory
      = convertToOpenAIFormat noImageTrajectory
    ∧ convertToOpenAIFormat imageTrajectory
      = [⟨"system", "sys"⟩, ⟨"user", "task"⟩,
         ⟨"assistant", "Click the button"⟩] :=
  ⟨rfl, rfl⟩

/-- C9 witness: the structural theorem applied to the concrete one-step
trajectory above. -/
theorem convert_openai_structure_witness :
    convertToOpenAIFormat noImageTrajectory
      = ⟨"system", noImageStep.systemPrompt⟩ ::
        ⟨"user", noImageTrajectory.taskDescription⟩ ::
        noImageTrajectory.steps.flatMap stepOpenAIMessages :=
  (convert_openai_structure noImageTrajectory noImageStep [] rfl).1

/-! ## Cleanup (trajectory-export.service.ts, cleanup) -/

/-- The columns of a trajectory row that `cleanup` consults. -/
structure CleanupRow where
  id : String
  createdAt : ℤ
  qualityScore : Option ℚ
deriving Repr, DecidableEq

/-- The deletion predicate of `cleanup`: created strictly before the cutoff
date AND (quality score ≤ `maxQuality` OR quality score null). -/
def cleanupDeletes (cutoffDate : ℤ) (maxQuality : ℚ) (row : CleanupRow) : Bool :=
  decide (row.createdAt < cutoffDate)
  && (match row.qualityScore with
      | some q => decide (q ≤ maxQuality)
      | none => true)

/-- `cleanup`: a `deleteMany` under the age+quality predicate, returning the
remaining rows and the deleted count.  The `keepCount` option is accepted
(defaulting to 100 in the source) but never consulted by the deletion. -/
def cleanup (rows : List CleanupRow) (cutoffDate : ℤ) (maxQuality : ℚ)
    (keepCount : Nat) : List CleanupRow × Nat :=
  let _retentionFloor := keepCount
  ((rows.filter (fun r => !cleanupDeletes cutoffDate maxQuality r)),
   (rows.filter (fun r => cleanupDeletes cutoffDate maxQuality r)).length)

/-- An old trajectory row with a null quality score. -/
def staleRow : CleanupRow := ⟨"t1", 0, none⟩

/-- C8 counterexample: with one stale row and `keepCount = 100`, cleanup
empties the store — the retention floor min(keepCount, size) = 1 is
violated, because `keepCount` is never enforced. -/
theorem cleanup_violates_retention_floor :
    (cleanup [staleRow] 10 (3 / 10) 100).1.length = 0
    ∧ min 100 [staleRow].length = 1
    ∧ ¬ (min 100 [staleRow].length
          ≤ (cleanup [staleRow] 10 (3 / 10) 100).1.length) := by
  refine ⟨rfl, rfl, ?_⟩
  decide

/-- C8 as amended: `cleanup` removes exactly the rows that are older than the
cutoff with a null or ≤ `maxQuality` score; the `keepCount` argument has no
effect whatsoever on the result, and any row newer than the cutoff or with a
score above `maxQuality` always survives — but no retention floor holds. -/
theorem cleanup_exact_and_keepCount_inert (rows : List CleanupRow)
    (cutoffDate : ℤ) (maxQuality : ℚ) (k1 k2 : Nat) :
    cleanup rows cutoffDate maxQuality k1 = cleanup rows cutoffDate maxQuality k2
    ∧ (cleanup rows cutoffDate maxQuality k1).1
        = rows.filter (fun r => !cleanupDeletes cutoffDate maxQuality r)
    ∧ ∀ r ∈ rows,
        (cutoffDate ≤ r.createdAt ∨ ∃ q, r.qualityScore = some q ∧ maxQuality < q)
        → r ∈ (cleanup rows cutoffDate maxQuality k1).1 := by
  refine ⟨rfl, rfl, ?_⟩
  intro r hr hcond
  have hdel : cleanupDeletes cutoffDate maxQuality r = false := by
    rcases hcond with h | ⟨q, hq, hlt⟩
    · simp [cleanupDeletes, not_lt.mpr h]
    · simp [cleanupDeletes, hq, not_le.mpr hlt]
  exact List.mem_filter.mpr ⟨hr, by simp [hdel]⟩

/-- A row newer than the cutoff. -/
def freshRow : CleanupRow := ⟨"t2", 5, none⟩

/-- Closed instantiation of the amended cleanup theorem: a row newer than the
cutoff survives. -/
theorem cleanup_exact_witness :
    freshRow ∈ (cleanup [freshRow] 3 (3 / 10) 7).1 :=
  (cleanup_exact_and_keepCount_inert [freshRow] 3 (3 / 10) 7 9).2.2 freshRow
    (List.mem_singleton_self freshRow) (Or.inl (by decide))
